import Mathlib

/-!
# Composable query builder: a shallow embedding

This file embeds the fragment-composition and rendering engine of a
composable SQL `select` builder and proves the key properties of its
specification: placeholder validation, splicing of nested fragments,
connective resolution between chained predicates, the clause order of the
renderer, and the placeholder/value consistency invariant checked by the
final binder.

Conventions of the embedding:
* Rust `String` is Lean `String`; `str::split('?')` is `splitQ` below,
  defined by direct recursion over the character list (same semantics as
  Rust `split` with a one-character pattern: `n` separators yield `n+1`
  pieces, empty pieces included).
* Fallible constructors (`TryFrom`) return `Except QueryError`.
* The two panics reachable from rendering (`"No table specified"`) are
  modelled by `Option`: `none` is an abort.  The `assert!` of the final
  binder is likewise modelled by returning `none`.
* Payload types the builder only carries opaquely (64-bit floats, chrono
  dates, JSON documents) are represented by opaque scalar stand-ins; the
  builder never inspects them.
-/

namespace CQB

/-- Rust `BoolKind` from `bool_kind.rs`: the AND/OR connective tag. -/
inductive BoolKind where
  | And
  | Or
deriving Repr, DecidableEq

/-- Rust `BoolKind::as_str`. -/
def BoolKind.as_str : BoolKind → String
  | .And => "and"
  | .Or => "or"

/-- Rust `OrderDir` from `order.rs`. -/
inductive OrderDir where
  | Asc
  | Desc
deriving Repr, DecidableEq

/-- Rust `OrderDir::as_str`. -/
def OrderDir.as_str : OrderDir → String
  | .Asc => "asc"
  | .Desc => "desc"

/-- Rust `SQLValue` from `sql_value.rs`: the closed union of bindable kinds.
`F64` carries the float's bit pattern, `DateTime`/`Date` carry chrono's
timestamp/day number, and `Json` carries the serialized document: the
builder moves these around without ever inspecting them. -/
inductive SQLValue where
  | I16 : Int → SQLValue
  | I32 : Int → SQLValue
  | I64 : Int → SQLValue
  | U64 : Nat → SQLValue
  | F64 : Nat → SQLValue
  | DateTime : Int → SQLValue
  | Date : Int → SQLValue
  | VecI64 : List Int → SQLValue
  | Str : String → SQLValue
  | Bool : Bool → SQLValue
  | Json : String → SQLValue
  | Null : SQLValue
deriving Repr, DecidableEq

/-- Rust `QueryError` from `error.rs`. -/
inductive QueryError where
  | IncorrectPlaceholderCount : String → Nat → QueryError
deriving Repr, DecidableEq

/-- The number of `?` placeholder characters in a template
(`s.chars().filter(|c| *c == '?').count()`). -/
def countQ (s : String) : Nat := s.data.count '?'

/-- Rust `placeholder_count` from `util.rs`: check that a template carries
exactly `exp` placeholders. -/
def placeholder_count (s : String) (exp : Nat) : Except QueryError Unit :=
  if countQ s ≠ exp then .error (.IncorrectPlaceholderCount s exp)
  else .ok ()

/-- Split a character list on `'?'`: `n` separators yield `n+1` pieces. -/
def splitOnQ : List Char → List (List Char)
  | [] => [[]]
  | c :: cs =>
    if c = '?' then [] :: splitOnQ cs
    else
      match splitOnQ cs with
      | [] => [[c]]
      | p :: ps => (c :: p) :: ps

/-- Rust `s.split('?')` / `s.split("?")`. -/
def splitQ (s : String) : List String := (splitOnQ s.data).map String.mk

/-- Rust `str::trim`: drop whitespace from both ends. -/
def trimS (s : String) : String :=
  String.mk (((s.data.dropWhile Char.isWhitespace).reverse.dropWhile
      Char.isWhitespace).reverse)

/-- Rust `Where` from `where.rs`: one connective-tagged predicate fragment. -/
inductive Where where
  | Simple (expr : String) (values : List SQLValue) (kind : BoolKind)
deriving Repr, DecidableEq

/-- Rust `Where::kind` setter: replace the fragment's own connective tag. -/
def Where.setKind : Where → BoolKind → Where
  | .Simple e v _, k => .Simple e v k

/-- Rust `Where::get_kind` (used by the where-clause loop in `lib.rs`). -/
def Where.get_kind : Where → BoolKind
  | .Simple _ _ k => k

/-- The expression text of a fragment. -/
def Where.expr : Where → String
  | .Simple e _ _ => e

/-- The bind values of a fragment. -/
def Where.values : Where → List SQLValue
  | .Simple _ v _ => v

/-- An argument position of a `Where` tuple constructor: either a plain
value (`impl Into<SQLValue>`), an optional value (`Option<T>`), or a
nested predicate fragment (`Where`) — the three `IntoWhere` impls of
`where.rs`. -/
inductive WhereArg where
  | val : SQLValue → WhereArg
  | opt : Option SQLValue → WhereArg
  | frag : Where → WhereArg
deriving Repr, DecidableEq

/-- Rust `IntoWhere::into_where`: append this argument's text to `expr` and its
values to `vals` (state-passing rendering of the two `&mut` parameters).
A scalar pushes one `?` and one value; `None` pushes one `?` and `Null`;
a nested fragment splices its expression verbatim and extends the values. -/
def WhereArg.into_where : WhereArg → String → List SQLValue → String × List SQLValue
  | .val v, expr, vals => (expr ++ "?", vals ++ [v])
  | .opt (some v), expr, vals => (expr ++ "?", vals ++ [v])
  | .opt none, expr, vals => (expr ++ "?", vals ++ [SQLValue.Null])
  | .frag (.Simple e v _), expr, vals => (expr ++ e, vals ++ v)

/-- Rust `TryFrom<&str> for Where`: a literal expression with no placeholders. -/
def Where.tryFrom0 (input_expr : String) : Except QueryError Where :=
  match placeholder_count input_expr 0 with
  | .error e => .error e
  | .ok _ => .ok (.Simple input_expr [] .And)

/-- Rust `TryFrom<(S, V)> for Where`: template plus one positional argument. -/
def Where.tryFrom1 (input_expr : String) (v1 : WhereArg) : Except QueryError Where :=
  match placeholder_count input_expr 1 with
  | .error e => .error e
  | .ok _ =>
    let ps := splitQ input_expr
    let st := v1.into_where (ps.headD "") []
    .ok (.Simple (st.1 ++ ps.getD 1 "") st.2 .And)

/-- Rust `TryFrom<(S, V1, V2)> for Where`: template plus two positional
arguments, spliced left to right between the split pieces. -/
def Where.tryFrom2 (input_expr : String) (v1 v2 : WhereArg) : Except QueryError Where :=
  match placeholder_count input_expr 2 with
  | .error e => .error e
  | .ok _ =>
    let ps := splitQ input_expr
    let st1 := v1.into_where (ps.headD "") []
    let st2 := v2.into_where (st1.1 ++ ps.getD 1 "") st1.2
    .ok (.Simple (st2.1 ++ ps.getD 2 "") st2.2 .And)

/-- Rust `TryFrom<(S, V1, V2, V3)> for Where`: template plus three positional
arguments. -/
def Where.tryFrom3 (input_expr : String) (v1 v2 v3 : WhereArg) :
    Except QueryError Where :=
  match placeholder_count input_expr 3 with
  | .error e => .error e
  | .ok _ =>
    let ps := splitQ input_expr
    let st1 := v1.into_where (ps.headD "") []
    let st2 := v2.into_where (st1.1 ++ ps.getD 1 "") st1.2
    let st3 := v3.into_where (st2.1 ++ ps.getD 2 "") st2.2
    .ok (.Simple (st3.1 ++ ps.getD 3 "") st3.2 .And)

/-- Rust `JoinKind` from `join.rs`. -/
inductive JoinKind where
  | Left
deriving Repr, DecidableEq

/-- Rust `JoinKind::as_str`. -/
def JoinKind.as_str : JoinKind → String
  | .Left => "left"

mutual

/-- Rust `Select` from `lib.rs`: the statement builder aggregate. -/
inductive Select where
  | mk : Option TableType → List String → List (JoinKind × Join) → List Where →
      Option (String × OrderDir) → Option String → Option Nat → Option Nat → Select

/-- Rust `TableType` from `lib.rs`: the `from` target. -/
inductive TableType where
  | Simple : String → TableType
  | Complex : String → List Select → TableType

/-- Rust `Join` from `join.rs`: a literal clause or a one-placeholder template
with a nested statement. -/
inductive Join where
  | Simple : String → Join
  | SubQuery : String → Select → Join

end

/-- Rust `TryFrom<String>` / `TryFrom<&str>` for `Join`: literal clauses are
accepted unconditionally. -/
def Join.tryFromStr (value : String) : Except QueryError Join :=
  .ok (.Simple value)

/-- Rust `TryFrom<(T, Select)> for Join`: the template must carry exactly one
placeholder, checked at construction time. -/
def Join.tryFromSub (expr : String) (select : Select) : Except QueryError Join :=
  match placeholder_count expr 1 with
  | .error e => .error e
  | .ok _ => .ok (.SubQuery expr select)

/-- Rust `Select::new` / `Select::default`. -/
def Select.new : Select := .mk none [] [] [] none none none none

/-- Rust `Select::table`: set (last write wins) the table source. -/
def Select.table : Select → TableType → Select
  | .mk _ sel j w ob gb l o, t => .mk (some t) sel j w ob gb l o

/-- Rust `Select::from`: new builder with the table set. -/
def Select.from (t : TableType) : Select := Select.new.table t

/-- Rust `Select::union`: shorthand building a two-statement complex source. -/
def Select.union (a b : Select) (al : String) : Select :=
  Select.from (.Complex ("((?) union (?)) as " ++ al) [a, b])

/-- Rust `Select::select`: append the columns produced by `IntoSelect` (the
argument here is the already-converted column list). -/
def Select.select : Select → List String → Select
  | .mk t sel j w ob gb l o, cols => .mk t (sel ++ cols) j w ob gb l o

/-- Append one predicate fragment (the `self.where_.push` of `lib.rs`). -/
def Select.pushWhere : Select → Where → Select
  | .mk t sel j w ob gb l o, wh => .mk t sel j (w ++ [wh]) ob gb l o

/-- Rust `Select::where_`: the argument models the `TryInto<Where>` result;
the `?` operator propagates its error. -/
def Select.where_ (s : Select) (w : Except QueryError Where) :
    Except QueryError Select :=
  match w with
  | .error e => .error e
  | .ok w => .ok (s.pushWhere w)

/-- Rust `Select::or_where`: convert, retag as OR, push. -/
def Select.or_where (s : Select) (w : Except QueryError Where) :
    Except QueryError Select :=
  match w with
  | .error e => .error e
  | .ok w => .ok (s.pushWhere (w.setKind .Or))

/-- Rust `Select::where_if`: invoke the callback and push only when `cond`. -/
def Select.where_if (s : Select) (cond : Bool)
    (callback : Unit → Except QueryError Where) : Except QueryError Select :=
  if cond then
    match callback () with
    | .error e => .error e
    | .ok w => .ok (s.pushWhere w)
  else .ok s

/-- Rust `Select::where_in`: push `col = ANY(?)` with the list as one value. -/
def Select.where_in (s : Select) (col : String) (values : List Int) : Select :=
  s.pushWhere (.Simple (col ++ " = ANY(?)") [.VecI64 values] .And)

/-- Rust `Select::left_join`: the argument models the `TryInto<Join>` result. -/
def Select.left_join (s : Select) (j : Except QueryError Join) :
    Except QueryError Select :=
  match j with
  | .error e => .error e
  | .ok j =>
    match s with
    | .mk t sel js w ob gb l o => .ok (.mk t sel (js ++ [(JoinKind.Left, j)]) w ob gb l o)

/-- Rust `Select::group_by` (argument already converted by `IntoGroupBy`). -/
def Select.group_by : Select → String → Select
  | .mk t sel j w ob _ l o, g => .mk t sel j w ob (some g) l o

/-- Rust `Select::order_by`. -/
def Select.order_by : Select → String → OrderDir → Select
  | .mk t sel j w _ gb l o, c, d => .mk t sel j w (some (c, d)) gb l o

/-- Rust `Select::limit` (argument already converted by `IntoOptional`). -/
def Select.limit : Select → Option Nat → Select
  | .mk t sel j w ob gb _ o, l => .mk t sel j w ob gb l o

/-- Rust `Select::offset` (argument already converted by `IntoOptional`). -/
def Select.offset : Select → Option Nat → Select
  | .mk t sel j w ob gb l _, o => .mk t sel j w ob gb l o

/-- The per-fragment loop of the where clause in `Select::parts`: emit
each fragment's expression, then a space, the NEXT fragment's connective
word and a space — or just a trailing space after the last fragment —
extending the value list in fragment order. -/
def whereLoop : List Where → String × List SQLValue
  | [] => ("", [])
  | [Where.Simple e v _] => (e ++ " ", v)
  | Where.Simple e v _ :: w2 :: rest =>
    let st := whereLoop (w2 :: rest)
    (e ++ " " ++ w2.get_kind.as_str ++ " " ++ st.1, v ++ st.2)

/-- The where clause of `Select::parts`: nothing when the list is empty,
otherwise ` where ` followed by the fragment loop. -/
def whereClause (ws : List Where) : String × List SQLValue :=
  if ws.isEmpty then ("", [])
  else
    let st := whereLoop ws
    (" where " ++ st.1, st.2)

/-- The group-by clause of `Select::parts`. -/
def groupClause : Option String → String
  | some g => " group by " ++ g ++ " "
  | none => ""

/-- The order-by clause of `Select::parts`. -/
def orderClause : Option (String × OrderDir) → String
  | some (c, d) => " order by " ++ c ++ " " ++ d.as_str ++ " "
  | none => ""

/-- The limit clause of `Select::parts`: one placeholder and one value. -/
def limitClause : Option Nat → String × List SQLValue
  | some l => (" limit ?", [SQLValue.U64 l])
  | none => ("", [])

/-- The offset clause of `Select::parts`. -/
def offsetClause : Option Nat → String × List SQLValue
  | some o => (" offset ?", [SQLValue.U64 o])
  | none => ("", [])

/-- The column list of `Select::parts`: `*` when empty, else the columns
comma-joined in insertion order. -/
def selectColumns (sel : List String) : String :=
  if sel.isEmpty then "*" else String.intercalate ", " sel

mutual

/-- Rust `Select::parts`: render the builder to one template string (still
holding `?` placeholders) and one flat value list, in clause order:
columns, source, joins, where, group by, order by, limit, offset.
`none` models the `"No table specified"` panic. -/
def Select.parts : Select → Option (String × List SQLValue)
  | .mk table sel joins wheres ob gb lim off =>
    match tableClause table with
    | none => none
    | some (tq, tv) =>
      match joinsClause joins with
      | none => none
      | some (jq, jv) =>
        let ws := whereClause wheres
        let ls := limitClause lim
        let os := offsetClause off
        some ("select " ++ selectColumns sel ++ " from " ++ tq ++ jq ++ ws.1 ++
                groupClause gb ++ orderClause ob ++ ls.1 ++ os.1,
              tv ++ jv ++ ws.2 ++ ls.2 ++ os.2)

/-- The `from` clause of `Select::parts`: a literal name verbatim; a
complex source splits its template on `?`, emits the first piece, then the
interleaving loop; no table is the `"No table specified"` panic. -/
def tableClause : Option TableType → Option (String × List SQLValue)
  | some (.Simple s) => some (s, [])
  | some (.Complex s v) =>
    match complexLoop v (splitQ s).tail with
    | none => none
    | some (q, vals) => some ((splitQ s).headD "" ++ q, vals)
  | none => none

/-- The nested-statement loop of a complex table source: for each nested
statement render it, splice its text, append its values, then emit the
next template piece if one remains; leftover pieces are emitted at the
end (matching the iterator consumption in `Select::parts`). -/
def complexLoop : List Select → List String → Option (String × List SQLValue)
  | [], ps => some (String.join ps, [])
  | sel :: rest, ps =>
    match Select.parts sel with
    | none => none
    | some (subq, subv) =>
      let step := match ps with
        | p :: t => (p, t)
        | [] => ("", [])
      match complexLoop rest step.2 with
      | none => none
      | some (tq, tv) => some (subq ++ step.1 ++ tq, subv ++ tv)

/-- The join loop of `Select::parts`: each join emits a space, the kind
word and ` join `; a literal clause verbatim; a sub-query join splits its
one-placeholder template, emits the first piece, the nested statement's
rendering trimmed, then the second piece if present. -/
def joinsClause : List (JoinKind × Join) → Option (String × List SQLValue)
  | [] => some ("", [])
  | (kind, .Simple s) :: rest =>
    match joinsClause rest with
    | none => none
    | some (q, v) => some (" " ++ kind.as_str ++ " join " ++ s ++ q, v)
  | (kind, .SubQuery s sub) :: rest =>
    match Select.parts sub with
    | none => none
    | some (subq, subv) =>
      match joinsClause rest with
      | none => none
      | some (q, v) =>
        some (" " ++ kind.as_str ++ " join " ++ (splitQ s).headD "" ++
                trimS subq ++ (splitQ s).getD 1 "" ++ q,
              subv ++ v)

end

/-- Rust `assert_query_part_and_placeholder_lengths_correct` from `lib.rs`: the
segment count must equal the value count plus one, or equal it exactly. -/
def assert_query_part_and_placeholder_lengths_correct
    (queryParts placeholders : Nat) : Bool :=
  queryParts = placeholders + 1 || queryParts = placeholders

/-- The `Right(v)` tail of the `zip_longest` loop of
`Select::into_builder`: values left after the segments run out are bound
alone. -/
def bindTail : List SQLValue → Nat → String
  | [], _ => ""
  | _ :: vs, k => "$" ++ toString k ++ bindTail vs (k + 1)

/-- The `zip_longest` loop of `Select::into_builder`: interleave literal
segments with positional parameters `$k` (sqlx numbers binds in emission
order starting at 1); leftover segments or values are emitted alone. -/
def zipBind : List String → List SQLValue → Nat → String
  | [], vs, k => bindTail vs k
  | p :: ps, [], k => p ++ zipBind ps [] k
  | p :: ps, _ :: vs, k => p ++ "$" ++ toString k ++ zipBind ps vs (k + 1)

/-- Rust `Select::into_builder` composed with `QueryBuilder::sql`: render the
parts, split the template on `?`, check the segment/value consistency
assertion (`none` models its abort), and emit the finished statement. -/
def Select.sql (s : Select) : Option String :=
  match s.parts with
  | none => none
  | some (p, v) =>
    let segs := splitQ p
    if assert_query_part_and_placeholder_lengths_correct segs.length v.length
    then some (zipBind segs v 1)
    else none

/-- The text an argument contributes when spliced into a template: a bind
slot for a scalar or optional, the nested expression verbatim for a
fragment. -/
def WhereArg.exprText : WhereArg → String
  | .val _ => "?"
  | .opt _ => "?"
  | .frag w => w.expr

/-- The values an argument contributes when spliced into a template. -/
def WhereArg.vals : WhereArg → List SQLValue
  | .val v => [v]
  | .opt (some v) => [v]
  | .opt none => [SQLValue.Null]
  | .frag w => w.values

/-- Specification form of the connective rule, read off §4.4 of the spec:
between fragment `i` and fragment `i+1` emit one space, the connective
word of fragment `i+1`'s own tag, and one space. -/
def connectiveTail : List Where → String
  | [] => ""
  | w2 :: rest => " " ++ w2.get_kind.as_str ++ " " ++ w2.expr ++ connectiveTail rest

/-- Specification form of the predicate-list rendering: the first
fragment's expression, then the connective-joined tail, then one trailing
space. -/
def connectiveJoin : List Where → String
  | [] => ""
  | w :: rest => w.expr ++ connectiveTail rest ++ " "

/-- A predicate fragment is consistent when its expression carries exactly
one placeholder per bind value. -/
def whereOk (w : Where) : Bool := countQ w.expr == w.values.length

mutual

/-- A builder all of whose statements (including those nested in complex
table sources and sub-query joins) have a table source set. -/
def Select.allTablesSet : Select → Bool
  | .mk t _ j _ _ _ _ _ => tableSet t && joinsSet j

/-- Table-source component of `Select.allTablesSet`. -/
def tableSet : Option TableType → Bool
  | none => false
  | some (.Simple _) => true
  | some (.Complex _ v) => selsSet v

/-- Nested-statement component of `Select.allTablesSet`. -/
def selsSet : List Select → Bool
  | [] => true
  | s :: rest => s.allTablesSet && selsSet rest

/-- Join component of `Select.allTablesSet`. -/
def joinsSet : List (JoinKind × Join) → Bool
  | [] => true
  | (_, .Simple _) :: rest => joinsSet rest
  | (_, .SubQuery _ sub) :: rest => sub.allTablesSet && joinsSet rest

end

mutual

/-- The placeholder-consistency invariant on builders: every statement in
the tree has a table source, every literal fragment (simple table name,
column expressions, simple join clauses, group-by and order-by text) is
free of the placeholder token, every predicate fragment is `whereOk`, and
every sub-query join template passed its one-placeholder validation.
Complex table-source templates are deliberately unconstrained. -/
def Select.selectOk : Select → Bool
  | .mk t sel j w ob gb _ _ =>
    tableOk t && sel.all (fun c => countQ c == 0) && joinsOk j &&
      w.all whereOk &&
      (match gb with | some g => countQ g == 0 | none => true) &&
      (match ob with | some (c, _) => countQ c == 0 | none => true)

/-- Table-source component of `Select.selectOk`. -/
def tableOk : Option TableType → Bool
  | none => false
  | some (.Simple s) => countQ s == 0
  | some (.Complex _ v) => selsOk v

/-- Nested-statement component of `Select.selectOk`. -/
def selsOk : List Select → Bool
  | [] => true
  | s :: rest => s.selectOk && selsOk rest

/-- Join component of `Select.selectOk`. -/
def joinsOk : List (JoinKind × Join) → Bool
  | [] => true
  | (_, .Simple s) :: rest => (countQ s == 0) && joinsOk rest
  | (_, .SubQuery s sub) :: rest => (countQ s == 1) && sub.selectOk && joinsOk rest

end

/-- Rendering succeeds and its template carries exactly one placeholder
per bind value. -/
def partsConsistent (s : Select) : Prop :=
  match s.parts with
  | some (p, v) => countQ p = v.length
  | none => False

/-- The `or_where` chain of the `or_where_works` test: three OR-tagged
predicates on `users`. -/
def orChainExample : Except QueryError Select :=
  ((Select.from (.Simple "users")).or_where
      (Where.tryFrom1 "status_id = ?" (.val (.I32 1)))).bind fun q =>
    (q.or_where (Where.tryFrom1 "status_id = ?" (.val (.I32 2)))).bind fun q =>
      q.or_where (Where.tryFrom1 "status_id = ?" (.val (.I32 3)))

end CQB

deriving instance DecidableEq for Except

namespace CQB

/-! ## Lemmas about placeholder counting and splitting -/

theorem splitOnQ_ne_nil (l : List Char) : splitOnQ l ≠ [] := by
  induction l with
  | nil => simp [splitOnQ]
  | cons c cs ih =>
    simp only [splitOnQ]
    split
    · simp
    · cases h : splitOnQ cs with
      | nil => simp
      | cons p ps => simp

theorem length_splitOnQ (l : List Char) :
    (splitOnQ l).length = l.count '?' + 1 := by
  induction l with
  | nil => simp [splitOnQ]
  | cons c cs ih =>
    simp only [splitOnQ, List.count_cons]
    split
    · rename_i hc
      simp [List.length_cons, ih, hc]
    · rename_i hc
      cases h : splitOnQ cs with
      | nil => exact absurd h (splitOnQ_ne_nil cs)
      | cons p ps =>
        rw [h] at ih
        simp only [List.length_cons] at ih ⊢
        have : (c == '?') = false := by simp [hc]
        simp [this, ih]

theorem count_of_mem_splitOnQ {l : List Char} {p : List Char}
    (h : p ∈ splitOnQ l) : p.count '?' = 0 := by
  induction l generalizing p with
  | nil =>
    simp [splitOnQ] at h
    simp [h]
  | cons c cs ih =>
    simp only [splitOnQ] at h
    split at h
    · rcases List.mem_cons.mp h with h | h
      · simp [h]
      · exact ih h
    · rename_i hc
      cases hs : splitOnQ cs with
      | nil => exact absurd hs (splitOnQ_ne_nil cs)
      | cons q qs =>
        rw [hs] at h
        rcases List.mem_cons.mp h with h | h
        · subst h
          have hq : q.count '?' = 0 := ih (hs ▸ List.mem_cons_self q qs)
          have : (c == '?') = false := by simp [hc]
          simp [List.count_cons, hq, this]
        · exact ih (hs ▸ List.mem_cons_of_mem q h)

theorem countQ_mk (l : List Char) : countQ (String.mk l) = l.count '?' := rfl

theorem countQ_append (a b : String) :
    countQ (a ++ b) = countQ a + countQ b := by
  simp [countQ, String.data_append, List.count_append]

theorem length_splitQ (s : String) : (splitQ s).length = countQ s + 1 := by
  simp [splitQ, length_splitOnQ, countQ]

theorem splitQ_ne_nil (s : String) : splitQ s ≠ [] := by
  simp [splitQ, splitOnQ_ne_nil s.data]

theorem countQ_of_mem_splitQ {s : String} {p : String} (h : p ∈ splitQ s) :
    countQ p = 0 := by
  simp only [splitQ, List.mem_map] at h
  obtain ⟨l, hl, rfl⟩ := h
  simpa [countQ_mk] using count_of_mem_splitOnQ hl

theorem count_dropWhile_ws (l : List Char) :
    (l.dropWhile Char.isWhitespace).count '?' = l.count '?' := by
  conv_rhs => rw [← List.takeWhile_append_dropWhile Char.isWhitespace l]
  rw [List.count_append]
  have hz : (l.takeWhile Char.isWhitespace).count '?' = 0 := by
    rw [List.count_eq_zero]
    intro hmem
    have := List.mem_takeWhile_imp hmem
    exact absurd this (by decide)
  omega

theorem countQ_trimS (s : String) : countQ (trimS s) = countQ s := by
  show (((s.data.dropWhile Char.isWhitespace).reverse.dropWhile
      Char.isWhitespace).reverse).count '?' = s.data.count '?'
  rw [List.count_reverse, count_dropWhile_ws, List.count_reverse,
    count_dropWhile_ws]

theorem countQ_intercalate_go (sep : String) (l : List String) (acc : String)
    (hl : ∀ x ∈ l, countQ x = 0) (hsep : countQ sep = 0) :
    countQ (String.intercalate.go acc sep l) = countQ acc := by
  induction l generalizing acc with
  | nil => rfl
  | cons a as ih =>
    show countQ (String.intercalate.go (acc ++ sep ++ a) sep as) = countQ acc
    rw [ih _ (fun x hx => hl x (List.mem_cons_of_mem a hx))]
    simp [countQ_append, hsep, hl a (List.mem_cons_self a as)]

theorem countQ_intercalate_zero (sep : String) (l : List String)
    (hl : ∀ x ∈ l, countQ x = 0) (hsep : countQ sep = 0) :
    countQ (String.intercalate sep l) = 0 := by
  cases l with
  | nil => rfl
  | cons a as =>
    show countQ (String.intercalate.go a sep as) = 0
    rw [countQ_intercalate_go sep as a
      (fun x hx => hl x (List.mem_cons_of_mem a hx)) hsep]
    exact hl a (List.mem_cons_self a as)

theorem countQ_foldl_append (l : List String) (acc : String)
    (h : ∀ x ∈ l, countQ x = 0) :
    countQ (l.foldl (fun r s => r ++ s) acc) = countQ acc := by
  induction l generalizing acc with
  | nil => rfl
  | cons a as ih =>
    show countQ (as.foldl (fun r s => r ++ s) (acc ++ a)) = countQ acc
    rw [ih _ (fun x hx => h x (List.mem_cons_of_mem a hx))]
    simp [countQ_append, h a (List.mem_cons_self a as)]

theorem countQ_join_zero (l : List String) (h : ∀ x ∈ l, countQ x = 0) :
    countQ (String.join l) = 0 := countQ_foldl_append l "" h

/-! ## Lemmas about fragment splicing -/

theorem into_where_eq (a : WhereArg) (e : String) (vs : List SQLValue) :
    a.into_where e vs = (e ++ a.exprText, vs ++ a.vals) := by
  cases a with
  | val v => rfl
  | opt o => cases o <;> rfl
  | frag w => cases w; rfl

theorem countQ_as_str (k : BoolKind) : countQ k.as_str = 0 := by
  cases k <;> rfl

/-- An argument's text carries exactly one placeholder per contributed
value, provided any nested fragment is itself consistent. -/
theorem countQ_exprText (a : WhereArg)
    (h : ∀ w, a = .frag w → whereOk w = true) :
    countQ a.exprText = a.vals.length := by
  cases a with
  | val v => rfl
  | opt o => cases o <;> rfl
  | frag w =>
    have := h w rfl
    simp only [whereOk, beq_iff_eq] at this
    simpa [WhereArg.exprText, WhereArg.vals] using this

/-! ## Lemmas about the where-clause loop -/

theorem whereLoop_eq_connectiveJoin (ws : List Where) (h : ws ≠ []) :
    (whereLoop ws).1 = connectiveJoin ws := by
  induction ws with
  | nil => exact absurd rfl h
  | cons w rest ih =>
    cases w with
    | Simple e v k =>
      cases rest with
      | nil => simp [whereLoop, connectiveJoin, connectiveTail, Where.expr]
      | cons w2 rest2 =>
        have ih2 := ih (by simp)
        cases w2 with
        | Simple e2 v2 k2 =>
          simp only [whereLoop] at ih2 ⊢
          rw [ih2]
          simp [connectiveJoin, connectiveTail, Where.expr, Where.get_kind,
            String.append_assoc]

theorem whereLoop_count (ws : List Where) (h : ∀ w ∈ ws, whereOk w = true) :
    countQ (whereLoop ws).1 = (whereLoop ws).2.length := by
  induction ws with
  | nil => rfl
  | cons w rest ih =>
    cases w with
    | Simple e v k =>
      have h1 := h _ (List.mem_cons_self _ _)
      simp only [whereOk, beq_iff_eq, Where.expr, Where.values] at h1
      cases rest with
      | nil =>
        simp [whereLoop, countQ_append, h1, show countQ " " = 0 from rfl]
      | cons w2 rest2 =>
        have ih2 := ih (fun x hx => h x (List.mem_cons_of_mem _ hx))
        cases w2 with
        | Simple e2 v2 k2 =>
          simp only [whereLoop] at ih2 ⊢
          simp [countQ_append, countQ_as_str, h1, ih2,
            show countQ " " = 0 from rfl]

theorem whereClause_count (ws : List Where) (h : ∀ w ∈ ws, whereOk w = true) :
    countQ (whereClause ws).1 = (whereClause ws).2.length := by
  by_cases hw : ws.isEmpty
  · simp [whereClause, hw]
    rfl
  · simp only [whereClause, hw, Bool.false_eq_true, if_false]
    rw [countQ_append, whereLoop_count ws h,
      show countQ " where " = 0 from rfl]
    omega

/-! ## Claim theorems -/

/-- C1: rendering `Select::from("t")` with the single 2-argument predicate
`("a = ? and b = ?", 1, 2)` yields the pre-binder template
`"select * from t where a = ? and b = ? "` (one trailing space) with bind
values `[1, 2]`, and the binder numbers it to
`"select * from t where a = $1 and b = $2 "`. -/
theorem roundtrip_two_arg_predicate :
    ((Select.from (.Simple "t")).where_
        (Where.tryFrom2 "a = ? and b = ?" (.val (.I32 1)) (.val (.I32 2)))).map
        Select.parts =
      .ok (some ("select * from t where a = ? and b = ? ",
        [.I32 1, .I32 2])) ∧
    ((Select.from (.Simple "t")).where_
        (Where.tryFrom2 "a = ? and b = ?" (.val (.I32 1)) (.val (.I32 2)))).map
        Select.sql =
      .ok (some "select * from t where a = $1 and b = $2 ") :=
  ⟨by decide, by decide⟩

/-- C2: between adjacent predicate fragments the rendered connective word
is read from the successor fragment's own tag (one space either side),
with one trailing space after the last fragment; in particular three
predicates added via `or_where` render as `p1 or p2 or p3`. -/
theorem connective_from_successor :
    (∀ ws : List Where, ws ≠ [] → (whereLoop ws).1 = connectiveJoin ws) ∧
    orChainExample.map Select.sql =
      .ok (some
        "select * from users where status_id = $1 or status_id = $2 or status_id = $3 ") :=
  ⟨whereLoop_eq_connectiveJoin, by decide⟩

/-- C2 witness: the connective rule applied to a concrete two-fragment
list whose second fragment is OR-tagged. -/
theorem connective_from_successor_witness :
    (whereLoop [Where.Simple "a = 1" [] .And, Where.Simple "b = 2" [] .Or]).1 =
      connectiveJoin [Where.Simple "a = 1" [] .And, Where.Simple "b = 2" [] .Or] :=
  connective_from_successor.1 _ (by decide)

/-- C3: constructing a predicate from a template with 1–3 positional
arguments splices each argument between the template's split pieces in
order: a nested fragment's expression text verbatim (no parentheses) with
its values appended in encounter order, a plain value as exactly one bind
slot with exactly one value; an argument's text carries exactly one
placeholder per contributed value when its nested fragments are
consistent, so the fragment's value count is the number of scalar
placeholders plus all nested values, counted recursively. -/
theorem predicate_splice_rule :
    ∀ (e p0 p1 p2 p3 : String) (a1 a2 a3 : WhereArg),
      (splitQ e = [p0, p1] →
        Where.tryFrom1 e a1 =
          .ok (.Simple (p0 ++ a1.exprText ++ p1) a1.vals .And)) ∧
      (splitQ e = [p0, p1, p2] →
        Where.tryFrom2 e a1 a2 =
          .ok (.Simple (p0 ++ a1.exprText ++ p1 ++ a2.exprText ++ p2)
            (a1.vals ++ a2.vals) .And)) ∧
      (splitQ e = [p0, p1, p2, p3] →
        Where.tryFrom3 e a1 a2 a3 =
          .ok (.Simple
            (p0 ++ a1.exprText ++ p1 ++ a2.exprText ++ p2 ++ a3.exprText ++ p3)
            (a1.vals ++ a2.vals ++ a3.vals) .And)) ∧
      ((∀ w, a1 = .frag w → whereOk w = true) →
        countQ a1.exprText = a1.vals.length) ∧
      (∀ v : SQLValue,
        (WhereArg.val v).exprText = "?" ∧ (WhereArg.val v).vals = [v]) ∧
      (∀ w : Where,
        (WhereArg.frag w).exprText = w.expr ∧ (WhereArg.frag w).vals = w.values) := by
  intro e p0 p1 p2 p3 a1 a2 a3
  refine ⟨fun hs => ?_, fun hs => ?_, fun hs => ?_,
    countQ_exprText a1, fun v => ⟨rfl, rfl⟩, fun w => ⟨rfl, rfl⟩⟩
  · have hc : countQ e = 1 := by
      have hl := length_splitQ e
      rw [hs] at hl
      simpa using hl.symm
    simp [Where.tryFrom1, placeholder_count, hc, hs, into_where_eq,
      String.append_assoc]
  · have hc : countQ e = 2 := by
      have hl := length_splitQ e
      rw [hs] at hl
      simpa using hl.symm
    simp [Where.tryFrom2, placeholder_count, hc, hs, into_where_eq,
      String.append_assoc]
  · have hc : countQ e = 3 := by
      have hl := length_splitQ e
      rw [hs] at hl
      simpa using hl.symm
    simp [Where.tryFrom3, placeholder_count, hc, hs, into_where_eq,
      String.append_assoc]

/-- C3 witness: arity-2 splice at a concrete template, one scalar and one
nested fragment. -/
theorem predicate_splice_rule_witness :
    Where.tryFrom2 "a = ? and b = ?" (.val (.I64 7))
        (.frag (.Simple "(c > 0)" [] .And)) =
      .ok (.Simple ("a = " ++ "?" ++ " and b = " ++ "(c > 0)" ++ "")
        ([.I64 7] ++ []) .And) :=
  (predicate_splice_rule "a = ? and b = ?" "a = " " and b = " "" ""
      (.val (.I64 7)) (.frag (.Simple "(c > 0)" [] .And))
      (.val (.I64 7))).2.1 (by decide)

/-- C4: for every template and argument count 0–3, a mismatch between the
template's placeholder count and the argument count yields the
placeholder-count-mismatch error carrying the template and the expected
count, and no fragment is produced. -/
theorem placeholder_mismatch_error :
    ∀ (e : String) (a1 a2 a3 : WhereArg),
      (countQ e ≠ 0 →
        Where.tryFrom0 e = .error (.IncorrectPlaceholderCount e 0)) ∧
      (countQ e ≠ 1 →
        Where.tryFrom1 e a1 = .error (.IncorrectPlaceholderCount e 1)) ∧
      (countQ e ≠ 2 →
        Where.tryFrom2 e a1 a2 = .error (.IncorrectPlaceholderCount e 2)) ∧
      (countQ e ≠ 3 →
        Where.tryFrom3 e a1 a2 a3 = .error (.IncorrectPlaceholderCount e 3)) := by
  intro e a1 a2 a3
  refine ⟨fun h => ?_, fun h => ?_, fun h => ?_, fun h => ?_⟩
  · simp [Where.tryFrom0, placeholder_count, h]
  · simp [Where.tryFrom1, placeholder_count, h]
  · simp [Where.tryFrom2, placeholder_count, h]
  · simp [Where.tryFrom3, placeholder_count, h]

/-- C4 witness: a two-placeholder template with one argument, and a
one-placeholder template with no argument, both rejected with the named
error. -/
theorem placeholder_mismatch_error_witness :
    Where.tryFrom1 "a = ? and b = ?" (.val (.I32 1)) =
      .error (.IncorrectPlaceholderCount "a = ? and b = ?" 1) ∧
    Where.tryFrom0 "a = ?" = .error (.IncorrectPlaceholderCount "a = ?" 0) :=
  ⟨(placeholder_mismatch_error "a = ? and b = ?" (.val (.I32 1))
      (.val (.I32 1)) (.val (.I32 1))).2.1 (by decide),
    (placeholder_mismatch_error "a = ?" (.val (.I32 1)) (.val (.I32 1))
      (.val (.I32 1))).1 (by decide)⟩

/-- C5: the binder splits the rendered template on `?` and accepts exactly
the two shapes `segments = values + 1` and `segments = values`; for every
other combination it aborts instead of emitting a statement. -/
theorem binder_shape_assertion :
    ∀ (s : Select) (p : String) (v : List SQLValue),
      s.parts = some (p, v) →
      (s.sql.isSome ↔
        ((splitQ p).length = v.length + 1 ∨ (splitQ p).length = v.length)) := by
  intro s p v h
  by_cases hc : (splitQ p).length = v.length + 1 ∨ (splitQ p).length = v.length
  · simp [Select.sql, h, assert_query_part_and_placeholder_lengths_correct, hc]
  · have h1 : ¬ (splitQ p).length = v.length + 1 := fun hx => hc (Or.inl hx)
    have h2 : ¬ (splitQ p).length = v.length := fun hx => hc (Or.inr hx)
    simp [Select.sql, h, assert_query_part_and_placeholder_lengths_correct,
      h1, h2]

/-- C5 witness: the one-segment, zero-value statement `select * from t` is
accepted. -/
theorem binder_shape_assertion_witness :
    (Select.from (.Simple "t")).sql.isSome ↔
      ((splitQ "select * from t").length = List.length ([] : List SQLValue) + 1 ∨
        (splitQ "select * from t").length = List.length ([] : List SQLValue)) :=
  binder_shape_assertion (Select.from (.Simple "t")) "select * from t" []
    (by decide)

/-- C7: a sub-statement join is accepted at construction exactly when its
template carries one placeholder; any other count is rejected there with
the placeholder-count-mismatch error. -/
theorem join_subquery_validation :
    ∀ (e : String) (sel : Select),
      (countQ e = 1 → Join.tryFromSub e sel = .ok (.SubQuery e sel)) ∧
      (countQ e ≠ 1 →
        Join.tryFromSub e sel = .error (.IncorrectPlaceholderCount e 1)) := by
  intro e sel
  constructor
  · intro h
    simp [Join.tryFromSub, placeholder_count, h]
  · intro h
    simp [Join.tryFromSub, placeholder_count, h]

/-- C7 witness: a one-placeholder join template is accepted, a
zero-placeholder one rejected. -/
theorem join_subquery_validation_witness :
    Join.tryFromSub "(?) as sub on a.id = sub.id" Select.new =
      .ok (.SubQuery "(?) as sub on a.id = sub.id" Select.new) ∧
    Join.tryFromSub "sub on a.id = sub.id" Select.new =
      .error (.IncorrectPlaceholderCount "sub on a.id = sub.id" 1) :=
  ⟨(join_subquery_validation "(?) as sub on a.id = sub.id" Select.new).1
      (by decide),
    (join_subquery_validation "sub on a.id = sub.id" Select.new).2 (by decide)⟩

/-- C8: with no offset, setting `limit n` appends exactly ` limit ?` and
the single value `n` to the otherwise unchanged rendering, while a unset
limit leaves the clause absent; the analogous statement holds for
`offset`. -/
theorem limit_offset_clause :
    ∀ (t : Option TableType) (sel : List String) (j : List (JoinKind × Join))
      (w : List Where) (ob : Option (String × OrderDir)) (gb : Option String)
      (n : Nat) (q : String) (v : List SQLValue),
      (Select.mk t sel j w ob gb none none).parts = some (q, v) →
      (Select.mk t sel j w ob gb (some n) none).parts =
        some (q ++ " limit ?", v ++ [.U64 n]) ∧
      (Select.mk t sel j w ob gb none (some n)).parts =
        some (q ++ " offset ?", v ++ [.U64 n]) := by
  intro t sel j w ob gb n q v h
  cases htc : tableClause t with
  | none => simp [Select.parts, htc] at h
  | some tp =>
    cases hjc : joinsClause j with
    | none => simp [Select.parts, htc, hjc] at h
    | some jp =>
      obtain ⟨tq, tv⟩ := tp
      obtain ⟨jq, jv⟩ := jp
      simp only [Select.parts, htc, hjc, limitClause, offsetClause,
        Option.some.injEq, Prod.mk.injEq] at h ⊢
      obtain ⟨hq, hv⟩ := h
      constructor <;> constructor <;>
        simp [← hq, ← hv, String.append_assoc]

/-- C8 witness: `limit 10` and `offset 10` on `select * from t`. -/
theorem limit_offset_clause_witness :
    (Select.mk (some (.Simple "t")) [] [] [] none none (some 10) none).parts =
      some ("select * from t" ++ " limit ?", [] ++ [.U64 10]) ∧
    (Select.mk (some (.Simple "t")) [] [] [] none none none (some 10)).parts =
      some ("select * from t" ++ " offset ?", [] ++ [.U64 10]) :=
  limit_offset_clause (some (.Simple "t")) [] [] [] none none 10
    "select * from t" [] (by decide)

/-- C10: `where_if` with a false condition returns the builder unchanged,
independently of the callback (so a callback whose fragment would fail
validation produces no error), and with a true condition behaves exactly
like `where_` on the callback's result. -/
theorem where_if_false_frame :
    ∀ (s : Select) (f g : Unit → Except QueryError Where),
      s.where_if false f = .ok s ∧
      s.where_if false f = s.where_if false g ∧
      s.where_if true f = s.where_ (f ()) := by
  intro s f g
  refine ⟨rfl, rfl, ?_⟩
  cases h : f () with
  | error e => simp [Select.where_if, Select.where_, h]
  | ok wv => simp [Select.where_if, Select.where_, h]

/-! ## Rendering succeeds when every statement in the tree has a table -/

theorem allSet_parts_isSome_rec : ∀ n : Nat,
    (∀ s : Select, sizeOf s ≤ n → s.allTablesSet = true →
      s.parts.isSome) ∧
    (∀ t : Option TableType, sizeOf t ≤ n → tableSet t = true →
      (tableClause t).isSome) ∧
    (∀ (l : List Select) (ps : List String), sizeOf l ≤ n →
      selsSet l = true → (complexLoop l ps).isSome) ∧
    (∀ j : List (JoinKind × Join), sizeOf j ≤ n → joinsSet j = true →
      (joinsClause j).isSome) := by
  intro n
  induction n using Nat.strong_induction_on with
  | _ n ih =>
    refine ⟨?_, ?_, ?_, ?_⟩
    · intro s hs hok
      cases s with
      | mk t sel j w ob gb lim off =>
        simp only [Select.allTablesSet, Bool.and_eq_true] at hok
        have h1 : sizeOf t < sizeOf (Select.mk t sel j w ob gb lim off) := by
          simp
          omega
        have h2 : sizeOf j < sizeOf (Select.mk t sel j w ob gb lim off) := by
          simp
          omega
        have htc := (ih (sizeOf t) (lt_of_lt_of_le h1 hs)).2.1 t le_rfl hok.1
        have hjc := (ih (sizeOf j) (lt_of_lt_of_le h2 hs)).2.2.2 j le_rfl hok.2
        obtain ⟨tp, htp⟩ := Option.isSome_iff_exists.mp htc
        obtain ⟨jp, hjp⟩ := Option.isSome_iff_exists.mp hjc
        obtain ⟨tq, tv⟩ := tp
        obtain ⟨jq, jv⟩ := jp
        simp [Select.parts, htp, hjp]
    · intro t ht hok
      cases t with
      | none => simp [tableSet] at hok
      | some tt =>
        cases tt with
        | Simple s => simp [tableClause]
        | Complex s v =>
          simp only [tableSet] at hok
          have h1 : sizeOf v < sizeOf (some (TableType.Complex s v)) := by
            simp
            omega
          have hcl := (ih (sizeOf v) (lt_of_lt_of_le h1 ht)).2.2.1 v
            (splitQ s).tail le_rfl hok
          obtain ⟨cp, hcp⟩ := Option.isSome_iff_exists.mp hcl
          obtain ⟨cq, cv⟩ := cp
          simp [tableClause, hcp]
    · intro l ps hl hok
      cases l with
      | nil => simp [complexLoop]
      | cons sel rest =>
        simp only [selsSet, Bool.and_eq_true] at hok
        have h1 : sizeOf sel < sizeOf (sel :: rest) := by
          simp
          omega
        have h2 : sizeOf rest < sizeOf (sel :: rest) := by
          simp
        have hp := (ih (sizeOf sel) (lt_of_lt_of_le h1 hl)).1 sel le_rfl hok.1
        obtain ⟨sp, hsp⟩ := Option.isSome_iff_exists.mp hp
        obtain ⟨sq, sv⟩ := sp
        cases ps with
        | nil =>
          have hr := (ih (sizeOf rest) (lt_of_lt_of_le h2 hl)).2.2.1 rest []
            le_rfl hok.2
          obtain ⟨rp, hrp⟩ := Option.isSome_iff_exists.mp hr
          obtain ⟨rq, rv⟩ := rp
          simp [complexLoop, hsp, hrp]
        | cons p pt =>
          have hr := (ih (sizeOf rest) (lt_of_lt_of_le h2 hl)).2.2.1 rest pt
            le_rfl hok.2
          obtain ⟨rp, hrp⟩ := Option.isSome_iff_exists.mp hr
          obtain ⟨rq, rv⟩ := rp
          simp [complexLoop, hsp, hrp]
    · intro j hj hok
      cases j with
      | nil => simp [joinsClause]
      | cons hd rest =>
        obtain ⟨kind, jn⟩ := hd
        cases jn with
        | Simple s =>
          simp only [joinsSet] at hok
          have h2 : sizeOf rest < sizeOf ((kind, Join.Simple s) :: rest) := by
            simp
          have hr := (ih (sizeOf rest) (lt_of_lt_of_le h2 hj)).2.2.2 rest
            le_rfl hok
          obtain ⟨rp, hrp⟩ := Option.isSome_iff_exists.mp hr
          obtain ⟨rq, rv⟩ := rp
          simp [joinsClause, hrp]
        | SubQuery s sub =>
          simp only [joinsSet, Bool.and_eq_true] at hok
          have h1 : sizeOf sub < sizeOf ((kind, Join.SubQuery s sub) :: rest) := by
            simp
            omega
          have h2 : sizeOf rest < sizeOf ((kind, Join.SubQuery s sub) :: rest) := by
            simp
          have hp := (ih (sizeOf sub) (lt_of_lt_of_le h1 hj)).1 sub le_rfl hok.1
          have hr := (ih (sizeOf rest) (lt_of_lt_of_le h2 hj)).2.2.2 rest
            le_rfl hok.2
          obtain ⟨sp, hsp⟩ := Option.isSome_iff_exists.mp hp
          obtain ⟨rp, hrp⟩ := Option.isSome_iff_exists.mp hr
          obtain ⟨sq, sv⟩ := sp
          obtain ⟨rq, rv⟩ := rp
          simp [joinsClause, hsp, hrp]

/-- C6 counterexample: a builder whose own table source IS set (a complex
source nesting a table-less statement) still aborts rendering, so "for
every builder with a table source set, rendering does not abort" fails as
stated. -/
theorem missing_table_aborts_cex :
    Select.from (.Complex "?" [Select.new]) =
      Select.mk (some (.Complex "?" [Select.new])) [] [] [] none none none none ∧
    (Select.from (.Complex "?" [Select.new])).parts = none :=
  ⟨rfl, by decide⟩

/-- C6 (amended): rendering a builder whose table source was never set
aborts (returns the panic marker) rather than a recoverable error; and a
builder in whose statement tree every statement — itself and all
statements nested in complex table sources and sub-query joins — has a
table source set never aborts. -/
theorem missing_table_aborts :
    (∀ sel j w ob gb lim off,
      (Select.mk none sel j w ob gb lim off).parts = none) ∧
    (∀ s : Select, s.allTablesSet = true → s.parts.isSome) := by
  constructor
  · intro sel j w ob gb lim off
    rfl
  · intro s h
    exact (allSet_parts_isSome_rec (sizeOf s)).1 s le_rfl h

/-- C6 witness: the empty builder aborts; `select * from t` renders. -/
theorem missing_table_aborts_witness :
    Select.new.parts = none ∧ (Select.from (.Simple "t")).parts.isSome :=
  ⟨missing_table_aborts.1 [] [] [] none none none none,
    missing_table_aborts.2 (Select.from (.Simple "t")) (by decide)⟩

/-! ## The placeholder/value consistency invariant -/

theorem countQ_selectColumns (sel : List String)
    (h : ∀ c ∈ sel, countQ c = 0) : countQ (selectColumns sel) = 0 := by
  by_cases he : sel.isEmpty
  · simp [selectColumns, he]
    rfl
  · simp only [selectColumns, he, Bool.false_eq_true, if_false]
    exact countQ_intercalate_zero ", " sel h rfl

theorem countQ_groupClause (gb : Option String)
    (h : ∀ g, gb = some g → countQ g = 0) : countQ (groupClause gb) = 0 := by
  cases gb with
  | none => rfl
  | some g =>
    simp [groupClause, countQ_append, h g rfl]
    constructor <;> rfl

theorem countQ_orderClause (ob : Option (String × OrderDir))
    (h : ∀ c d, ob = some (c, d) → countQ c = 0) :
    countQ (orderClause ob) = 0 := by
  cases ob with
  | none => rfl
  | some cd =>
    obtain ⟨c, d⟩ := cd
    have hc := h c d rfl
    cases d <;> simp [orderClause, countQ_append, hc, OrderDir.as_str] <;>
      refine ⟨⟨⟨rfl, rfl⟩, rfl⟩, rfl⟩

theorem limitClause_count (lim : Option Nat) :
    countQ (limitClause lim).1 = (limitClause lim).2.length := by
  cases lim <;> rfl

theorem offsetClause_count (off : Option Nat) :
    countQ (offsetClause off).1 = (offsetClause off).2.length := by
  cases off <;> rfl

theorem countQ_joinKind (k : JoinKind) : countQ k.as_str = 0 := by
  cases k
  rfl

theorem countQ_splitQ_headD (s : String) :
    countQ ((splitQ s).head?.getD "") = 0 := by
  cases hsp : splitQ s with
  | nil => exact absurd hsp (splitQ_ne_nil s)
  | cons a l =>
    have ha : a ∈ splitQ s := by
      rw [hsp]
      exact List.mem_cons_self a l
    simpa [hsp] using countQ_of_mem_splitQ ha

theorem countQ_splitQ_getD (s : String) (i : Nat) :
    countQ ((splitQ s)[i]?.getD "") = 0 := by
  cases hg : (splitQ s)[i]? with
  | none => rfl
  | some x =>
    simpa using countQ_of_mem_splitQ (List.getElem?_mem hg)

theorem selectOk_parts_rec : ∀ n : Nat,
    (∀ s : Select, sizeOf s ≤ n → s.selectOk = true →
      ∃ p v, s.parts = some (p, v) ∧ countQ p = v.length) ∧
    (∀ t : Option TableType, sizeOf t ≤ n → tableOk t = true →
      ∃ p v, tableClause t = some (p, v) ∧ countQ p = v.length) ∧
    (∀ (l : List Select) (ps : List String), sizeOf l ≤ n →
      selsOk l = true → (∀ x ∈ ps, countQ x = 0) →
      ∃ p v, complexLoop l ps = some (p, v) ∧ countQ p = v.length) ∧
    (∀ j : List (JoinKind × Join), sizeOf j ≤ n → joinsOk j = true →
      ∃ p v, joinsClause j = some (p, v) ∧ countQ p = v.length) := by
  intro n
  induction n using Nat.strong_induction_on with
  | _ n ih =>
    refine ⟨?_, ?_, ?_, ?_⟩
    · intro s hs hok
      cases s with
      | mk t sel j w ob gb lim off =>
        simp only [Select.selectOk, Bool.and_eq_true] at hok
        obtain ⟨⟨⟨⟨⟨hT, hSel⟩, hJ⟩, hW⟩, hG⟩, hO⟩ := hok
        have h1 : sizeOf t < sizeOf (Select.mk t sel j w ob gb lim off) := by
          simp
          omega
        have h2 : sizeOf j < sizeOf (Select.mk t sel j w ob gb lim off) := by
          simp
          omega
        obtain ⟨tq, tv, htc, htcnt⟩ :=
          (ih (sizeOf t) (lt_of_lt_of_le h1 hs)).2.1 t le_rfl hT
        obtain ⟨jq, jv, hjc, hjcnt⟩ :=
          (ih (sizeOf j) (lt_of_lt_of_le h2 hs)).2.2.2 j le_rfl hJ
        have hcols : countQ (selectColumns sel) = 0 := by
          refine countQ_selectColumns sel fun c hc => ?_
          simpa using (List.all_eq_true.mp hSel) c hc
        have hwc : countQ (whereClause w).1 = (whereClause w).2.length :=
          whereClause_count w fun x hx => (List.all_eq_true.mp hW) x hx
        have hg : countQ (groupClause gb) = 0 := by
          refine countQ_groupClause gb fun g hg2 => ?_
          subst hg2
          simpa using hG
        have ho : countQ (orderClause ob) = 0 := by
          refine countQ_orderClause ob fun c d hcd => ?_
          subst hcd
          simpa using hO
        have hl := limitClause_count lim
        have hof := offsetClause_count off
        refine ⟨"select " ++ selectColumns sel ++ " from " ++ tq ++ jq ++
            (whereClause w).1 ++ groupClause gb ++ orderClause ob ++
            (limitClause lim).1 ++ (offsetClause off).1,
          tv ++ jv ++ (whereClause w).2 ++ (limitClause lim).2 ++
            (offsetClause off).2, ?_, ?_⟩
        · simp [Select.parts, htc, hjc]
        · simp only [countQ_append, List.length_append,
            show countQ "select " = 0 from rfl,
            show countQ " from " = 0 from rfl]
          omega
    · intro t ht hok
      cases t with
      | none => simp [tableOk] at hok
      | some tt =>
        cases tt with
        | Simple s =>
          have hcs : countQ s = 0 := by simpa [tableOk] using hok
          exact ⟨s, [], rfl, by simpa using hcs⟩
        | Complex s v =>
          simp only [tableOk] at hok
          have h1 : sizeOf v < sizeOf (some (TableType.Complex s v)) := by
            simp
            omega
          obtain ⟨cq, cv, hcl, hcnt⟩ :=
            (ih (sizeOf v) (lt_of_lt_of_le h1 ht)).2.2.1 v (splitQ s).tail
              le_rfl hok
              (fun x hx => countQ_of_mem_splitQ (List.tail_subset _ hx))
          refine ⟨(splitQ s).headD "" ++ cq, cv, ?_, ?_⟩
          · simp [tableClause, hcl]
          · simp [countQ_append, countQ_splitQ_headD, hcnt]
    · intro l ps hl hok hps
      cases l with
      | nil =>
        exact ⟨String.join ps, [], rfl, by simpa using countQ_join_zero ps hps⟩
      | cons sel rest =>
        simp only [selsOk, Bool.and_eq_true] at hok
        have h1 : sizeOf sel < sizeOf (sel :: rest) := by
          simp
          omega
        have h2 : sizeOf rest < sizeOf (sel :: rest) := by
          simp
        obtain ⟨sq, sv, hsp, hscnt⟩ :=
          (ih (sizeOf sel) (lt_of_lt_of_le h1 hl)).1 sel le_rfl hok.1
        cases ps with
        | nil =>
          obtain ⟨rq, rv, hrp, hrcnt⟩ :=
            (ih (sizeOf rest) (lt_of_lt_of_le h2 hl)).2.2.1 rest [] le_rfl
              hok.2 (by simp)
          refine ⟨sq ++ "" ++ rq, sv ++ rv, ?_, ?_⟩
          · simp [complexLoop, hsp, hrp]
          · simp [countQ_append, hscnt, hrcnt, show countQ "" = 0 from rfl]
        | cons p pt =>
          obtain ⟨rq, rv, hrp, hrcnt⟩ :=
            (ih (sizeOf rest) (lt_of_lt_of_le h2 hl)).2.2.1 rest pt le_rfl
              hok.2 (fun x hx => hps x (List.mem_cons_of_mem p hx))
          refine ⟨sq ++ p ++ rq, sv ++ rv, ?_, ?_⟩
          · simp [complexLoop, hsp, hrp]
          · simp [countQ_append, hscnt, hrcnt,
              hps p (List.mem_cons_self p pt)]
    · intro j hj hok
      cases j with
      | nil => exact ⟨"", [], rfl, rfl⟩
      | cons hd rest =>
        obtain ⟨kind, jn⟩ := hd
        cases jn with
        | Simple s =>
          simp only [joinsOk, Bool.and_eq_true] at hok
          have h2 : sizeOf rest < sizeOf ((kind, Join.Simple s) :: rest) := by
            simp
          obtain ⟨rq, rv, hrp, hrcnt⟩ :=
            (ih (sizeOf rest) (lt_of_lt_of_le h2 hj)).2.2.2 rest le_rfl hok.2
          have hcs : countQ s = 0 := by simpa using hok.1
          refine ⟨" " ++ kind.as_str ++ " join " ++ s ++ rq, rv, ?_, ?_⟩
          · simp [joinsClause, hrp]
          · simp [countQ_append, countQ_joinKind, hcs, hrcnt,
              show countQ " " = 0 from rfl, show countQ " join " = 0 from rfl]
        | SubQuery s sub =>
          simp only [joinsOk, Bool.and_eq_true] at hok
          obtain ⟨⟨hcs, hsub⟩, hrest⟩ := hok
          have h1 : sizeOf sub < sizeOf ((kind, Join.SubQuery s sub) :: rest) := by
            simp
            omega
          have h2 : sizeOf rest < sizeOf ((kind, Join.SubQuery s sub) :: rest) := by
            simp
          obtain ⟨sq, sv, hsp, hscnt⟩ :=
            (ih (sizeOf sub) (lt_of_lt_of_le h1 hj)).1 sub le_rfl hsub
          obtain ⟨rq, rv, hrp, hrcnt⟩ :=
            (ih (sizeOf rest) (lt_of_lt_of_le h2 hj)).2.2.2 rest le_rfl hrest
          refine ⟨" " ++ kind.as_str ++ " join " ++ (splitQ s).headD "" ++
              trimS sq ++ (splitQ s).getD 1 "" ++ rq, sv ++ rv, ?_, ?_⟩
          · simp [joinsClause, hsp, hrp]
          · simp [countQ_append, countQ_joinKind, countQ_splitQ_headD,
              countQ_splitQ_getD, countQ_trimS, hscnt, hrcnt,
              show countQ " " = 0 from rfl, show countQ " join " = 0 from rfl]

/-- C9 counterexample: `Select::from` accepts the literal table name
`"a?"` with no validation, rendering a template with one placeholder but
no values, so "placeholder count equals value count for every builder
whose fragments passed construction-time validation" fails as stated and
the binder's assertion fires. -/
theorem placeholder_value_invariant_cex :
    (Select.from (.Simple "a?")).parts = some ("select * from a?", []) ∧
    countQ "select * from a?" ≠ List.length ([] : List SQLValue) ∧
    (Select.from (.Simple "a?")).sql = none :=
  ⟨by decide, by decide, by decide⟩

/-- C9 (amended): for every builder built from validated fragments whose
literal fragments (simple table name, column expressions, simple join
clauses, group-by and order-by text) carry no placeholder token —
complex table-source templates may still disagree with their
nested-statement count — the rendered template carries exactly one `?`
per bind value and the binder's segment/value assertion never fires. -/
theorem placeholder_value_invariant :
    ∀ s : Select, s.selectOk = true → partsConsistent s ∧ s.sql.isSome := by
  intro s h
  obtain ⟨p, v, hp, hc⟩ := (selectOk_parts_rec (sizeOf s)).1 s le_rfl h
  constructor
  · simp [partsConsistent, hp, hc]
  · simp [Select.sql, hp, assert_query_part_and_placeholder_lengths_correct,
      length_splitQ, hc]

/-- C9 witness: a builder with a where-in predicate, a limit and a
validated sub-query join satisfies the invariant. -/
theorem placeholder_value_invariant_witness :
    partsConsistent (((Select.from (.Simple "t")).where_in "id" [1, 2]).limit
      (some 5)) ∧
    ((((Select.from (.Simple "t")).where_in "id" [1, 2]).limit
      (some 5)).sql).isSome :=
  placeholder_value_invariant _ (by decide)

end CQB
